import Mathlib

/-!
Verification of the investment-tracker PnL core (`mutual_funds.py`,
`plots_and_summary.py`) against its natural-language specification.

Shallow embedding conventions:
* calendar dates are integers (days); prices, units and money are rationals;
* a Python float value that IEEE arithmetic turns non-finite (NaN or ±inf)
  is modelled as `none : Option ℚ`;
* methods that mutate their object are embedded as state-passing functions
  returning the updated object alongside the value;
* Python's stable `sorted` / pandas `sort_values` are embedded as
  `List.insertionSort`, which is likewise stable.
-/

namespace InvestmentTracker

/-- The side of a trade.  The source models this with subclasses
`Purchase`/`Sell` of `Trasaction` (sic) whose `transaction_type` field is
the string `"purchase"` or `"sell"`; the embedding uses an enum, so the
`ValueError` branch of `add_transaction` for other strings is unreachable
by construction. -/
inductive Side where
  | purchase
  | sell
deriving DecidableEq, Repr

/-- `Trasaction.__init__`: a single buy or sell event. -/
structure Trasaction where
  date : ℤ
  units : ℚ
  average_nav : ℚ
  transaction_type : Side
deriving DecidableEq, Repr

/-- `Trasaction.nav_with_sign`: sell legs contribute a negative price.
(The `transaction_type is None` branch of the source is unreachable for
`Purchase`/`Sell` objects, the only ones ever constructed.) -/
def Trasaction.nav_with_sign (t : Trasaction) : ℚ :=
  match t.transaction_type with
  | .purchase => t.average_nav
  | .sell => -t.average_nav

/-- `Trasaction.units_with_sign`: sell legs contribute negative units. -/
def Trasaction.units_with_sign (t : Trasaction) : ℚ :=
  match t.transaction_type with
  | .purchase => t.units
  | .sell => -t.units

/-- `TrasactionHistory.__init__`: the raw ledger plus the mutable
`max_date` cutoff field that the aggregate methods rebind. -/
structure TrasactionHistory where
  transaction_history_og : List Trasaction
  max_date : Option ℤ
deriving DecidableEq, Repr

namespace TrasactionHistory

/-- The `transaction_history` property: the ledger filtered by the current
`max_date` cutoff (no filtering when the cutoff is `None`). -/
def transaction_history (th : TrasactionHistory) : List Trasaction :=
  match th.max_date with
  | none => th.transaction_history_og
  | some d => th.transaction_history_og.filter (fun x => decide (x.date ≤ d))

/-- `add_transaction`: appends to the list returned by the
`transaction_history` property.  When `max_date` is `None` that property
returns the `transaction_history_og` list object itself, so the append is
visible; when `max_date` is set, the property returns a fresh filtered
list, the append lands on that temporary and the ledger is unchanged. -/
def add_transaction (th : TrasactionHistory) (date : ℤ) (units average_nav : ℚ)
    (transaction_type : Side) : TrasactionHistory :=
  match th.max_date with
  | none =>
    { th with transaction_history_og :=
        th.transaction_history_og ++ [⟨date, units, average_nav, transaction_type⟩] }
  | some _ => th

/-- The `unit_array` property (unsigned units of the filtered view). -/
def unit_array (th : TrasactionHistory) : List ℚ :=
  th.transaction_history.map (·.units)

/-- The `units_array_with_sign` property. -/
def units_array_with_sign (th : TrasactionHistory) : List ℚ :=
  th.transaction_history.map (·.units_with_sign)

/-- The `nav_array_with_sign` property. -/
def nav_array_with_sign (th : TrasactionHistory) : List ℚ :=
  th.transaction_history.map (·.nav_with_sign)

/-- `total_units(max_date)`: sets `self.max_date` (returned as the second
component) and sums the signed units of the filtered view. -/
def total_units (th : TrasactionHistory) (max_date : Option ℤ) :
    ℚ × TrasactionHistory :=
  let th' := { th with max_date := max_date }
  (th'.units_array_with_sign.sum, th')

/-- `average_nav(max_date)`: `Σ (units · signed_nav) / Σ signed_units`,
returning 0 when the denominator is 0. -/
def average_nav (th : TrasactionHistory) (max_date : Option ℤ) :
    ℚ × TrasactionHistory :=
  let th' := { th with max_date := max_date }
  let units := th'.unit_array
  let units_sign := th'.units_array_with_sign
  let nav := th'.nav_array_with_sign
  let units_sum := units_sign.sum
  if units_sum = 0 then (0, th')
  else ((List.zipWith (· * ·) units nav).sum / units_sum, th')

/-- numpy division: a zero divisor yields a non-finite float (NaN for 0/0,
±inf otherwise), modelled as `none`. -/
def npDiv (a b : ℚ) : Option ℚ :=
  if b = 0 then none else some (a / b)

/-- `transactions_pnl(current_nav, percentage, max_date)`.  The percentage
branch divides by the invested amount with no zero guard. -/
def transactions_pnl (th : TrasactionHistory) (current_nav : ℚ)
    (percentage : Bool) (max_date : Option ℤ) :
    Option ℚ × TrasactionHistory :=
  let th' := { th with max_date := max_date }
  let invested := (List.zipWith (· * ·) th'.unit_array th'.nav_array_with_sign).sum
  let current := th'.units_array_with_sign.sum * current_nav
  let pnl := current - invested
  if percentage then ((npDiv pnl invested).map (· * 100), th')
  else (some pnl, th')

/-- `net_transaction_value(max_date)`: returns 0 when the *signed navs*
sum to 0 (the source's "no transactions" guard), otherwise
`Σ (units · signed_nav)` over the filtered view. -/
def net_transaction_value (th : TrasactionHistory) (max_date : Option ℤ) :
    ℚ × TrasactionHistory :=
  let th' := { th with max_date := max_date }
  if th'.nav_array_with_sign.sum = 0 then (0, th')
  else ((List.zipWith (· * ·) th'.unit_array th'.nav_array_with_sign).sum, th')

/-- `sort_transactions(reverse=True)`: stable sort of the raw ledger by
date, descending when `reverse` is true. -/
def sort_transactions (th : TrasactionHistory) (reverse : Bool := true) :
    TrasactionHistory :=
  { th with transaction_history_og :=
      if reverse then
        List.insertionSort (fun a b => b.date ≤ a.date) th.transaction_history_og
      else
        List.insertionSort (fun a b => a.date ≤ b.date) th.transaction_history_og }

/-- A transaction dictionary with the keys required by
`create_transcations_from_dict`. -/
structure TransactionDict where
  date : ℤ
  units : ℚ
  average_nav : ℚ
  transaction_type : Side
deriving DecidableEq, Repr

/-- `create_transcations_from_dict`: add each dictionary in order. -/
def create_transcations_from_dict (th : TrasactionHistory)
    (transactions : List TransactionDict) : TrasactionHistory :=
  transactions.foldl
    (fun acc t => acc.add_transaction t.date t.units t.average_nav t.transaction_type)
    th

/-- `__add__`: a fresh history holding the concatenation of the two raw
ledgers (the fresh object's `max_date` is `None`). -/
def hadd (a b : TrasactionHistory) : TrasactionHistory :=
  { transaction_history_og := a.transaction_history_og ++ b.transaction_history_og
    max_date := none }

/-- `__len__`: length of the filtered view. -/
def len (th : TrasactionHistory) : ℕ :=
  th.transaction_history.length

end TrasactionHistory

export TrasactionHistory (npDiv TransactionDict)

/-- A raw purchase/sell leg as ingested by `create_transcations_dict`
(`{units, average_nav, purchase_date | sale_date}`). -/
structure Leg where
  date : ℤ
  units : ℚ
  average_nav : ℚ
deriving DecidableEq, Repr

/-- `Holding.__init__` state: per-side ledgers, merged ledger and the
cached aggregates that `create_transactions` fills in. -/
structure Holding where
  scheme_code : ℤ
  purchase_history : TrasactionHistory
  sell_history : TrasactionHistory
  all_transactions : TrasactionHistory
  purchase_nav : ℚ
  purchase_units : ℚ
  sell_nav : ℚ
  sell_units : ℚ
deriving DecidableEq, Repr

namespace Holding

/-- A freshly constructed holding (empty ledgers, zero aggregates). -/
def init (scheme_code : ℤ) : Holding :=
  { scheme_code := scheme_code
    purchase_history := ⟨[], none⟩
    sell_history := ⟨[], none⟩
    all_transactions := ⟨[], none⟩
    purchase_nav := 0, purchase_units := 0, sell_nav := 0, sell_units := 0 }

/-- `create_transcations_dict`: tag each leg with the requested side. -/
def create_transcations_dict (transactions : List Leg) (transaction_type : Side) :
    List TransactionDict :=
  transactions.map (fun x => ⟨x.date, x.units, x.average_nav, transaction_type⟩)

/-- `create_transactions`: ingest both sides, merge them into
`all_transactions`, sort the merge (default `reverse=True`, i.e.
descending), then cache the per-side average navs (which sets each side's
`max_date`) and unit sums (computed from the then-filtered views). -/
def create_transactions (h : Holding) (purchase_transactions sell_transactions : List Leg)
    (max_date : Option ℤ := none) : Holding :=
  let pd := create_transcations_dict purchase_transactions .purchase
  let sd := create_transcations_dict sell_transactions .sell
  let ph := h.purchase_history.create_transcations_from_dict pd
  let sh := h.sell_history.create_transcations_from_dict sd
  let allt := (ph.hadd sh).sort_transactions true
  let pn := ph.average_nav max_date
  let sn := sh.average_nav max_date
  { h with
    purchase_history := pn.2
    sell_history := sn.2
    all_transactions := allt
    purchase_nav := pn.1
    purchase_units := pn.2.unit_array.sum
    sell_nav := sn.1
    sell_units := sn.2.unit_array.sum }

/-- `Holding.get_total_units`: delegates to `all_transactions`. -/
def get_total_units (h : Holding) (max_date : Option ℤ) : ℚ × Holding :=
  let r := h.all_transactions.total_units max_date
  (r.1, { h with all_transactions := r.2 })

/-- `Holding.invested_amount`: delegates to `all_transactions`. -/
def invested_amount (h : Holding) (max_date : Option ℤ) : ℚ × Holding :=
  let r := h.all_transactions.net_transaction_value max_date
  (r.1, { h with all_transactions := r.2 })

/-- One `{date, nav}` record of the external NAV feed. -/
structure NavEntry where
  date : ℤ
  nav : ℚ
deriving DecidableEq, Repr

/-- A row of the `merged = pd.merge_asof(nav_df, transcation_df,
on="date")` frame after the `total_units.notna()` filter. -/
structure MergedRow where
  date : ℤ
  nav : ℚ
  total_units : ℚ
  total_invested : ℚ
deriving DecidableEq, Repr

/-- A row of the PnL timeseries returned by `get_pnl_timeseries`. -/
structure PnlRow where
  date : ℤ
  nav : ℚ
  total_units : ℚ
  total_invested : ℚ
  current_value : ℚ
  pnl : ℚ
  pnl_percentage : ℚ
deriving DecidableEq, Repr

/-- The `transcation_df` frame of `get_pnl_timeseries`: one row per ledger
transaction date carrying `get_total_units(date)` and
`invested_amount(date)`, sorted ascending by date (stable). -/
def transcation_df (h : Holding) : List (ℤ × ℚ × ℚ) :=
  let transactions := h.all_transactions.transaction_history
  let transaction_dates := transactions.map (·.date)
  let rows := transaction_dates.map (fun t =>
    (t, (h.all_transactions.total_units (some t)).1,
        (h.all_transactions.net_transaction_value (some t)).1))
  List.insertionSort (fun a b => a.1 ≤ b.1) rows

/-- The backward as-of join of the sorted NAV frame against
`transcation_df`, fused with the `merged["total_units"].notna()` filter:
each NAV date keeps the last transaction row dated `≤` it, and NAV dates
before every transaction produce no row. -/
def merged_asof (h : Holding) (nav_data : List NavEntry) : List MergedRow :=
  let nav_df := List.insertionSort (fun a b : NavEntry => a.date ≤ b.date) nav_data
  let tdf := h.transcation_df
  nav_df.filterMap (fun e =>
    match (tdf.filter (fun r => decide (r.1 ≤ e.date))).getLast? with
    | some r => some ⟨e.date, e.nav, r.2.1, r.2.2⟩
    | none => none)

/-- `Holding.get_pnl_timeseries` (with the NAV feed passed in, as the
spec's interface section prescribes; the source otherwise fetches it over
HTTP).  After the as-of join: clip `total_invested` to `≥ 0`, keep rows
with `total_invested > 0`, then derive value, pnl and percentage.  The
`fillna(0)` on the percentage column only replaces the NaN of a 0/0
division, which cannot occur on the kept rows (`total_invested > 0`). -/
def get_pnl_timeseries (h : Holding) (nav_data : List NavEntry) : List PnlRow :=
  let merged := h.merged_asof nav_data
  let merged := merged.map (fun r => { r with total_invested := max r.total_invested 0 })
  let merged := merged.filter (fun r => decide (0 < r.total_invested))
  merged.map (fun r =>
    let current_value := r.total_units * r.nav
    let pnl := current_value - r.total_invested
    let pnl_percentage := pnl / r.total_invested * 100
    ⟨r.date, r.nav, r.total_units, r.total_invested, current_value, pnl, pnl_percentage⟩)

end Holding

export Holding (NavEntry PnlRow MergedRow)

namespace Portfolio

/-- A row of the portfolio-level PnL timeseries: the per-date aggregate of
the concatenated per-holding series.  `scheme_code` is the list of scheme
codes aggregated into the row (the source stringifies this list). -/
structure PRow where
  date : ℤ
  total_invested : ℚ
  current_value : ℚ
  scheme_code : List ℤ
  pnl : ℚ
  pnl_percentage : ℚ
deriving DecidableEq, Repr

/-- `Portfolio.get_pnl_timeseries`, with each holding paired with its NAV
feed.  With zero holdings `pd.concat([])` raises `ValueError`; otherwise
the concatenation is grouped by date (pandas sorts group keys ascending),
summing `total_invested` and `current_value` and collecting the scheme
codes, rows with non-positive invested amount are dropped, and `pnl` /
`pnl_percentage` are recomputed at the aggregate level. -/
def get_pnl_timeseries (holdings : List (Holding × List NavEntry)) :
    Except String (List PRow) :=
  match holdings with
  | [] => .error "ValueError: No objects to concatenate"
  | _ =>
    let pnl := (holdings.map (fun hn =>
      (hn.1.get_pnl_timeseries hn.2).map (fun r => (r, hn.1.scheme_code)))).flatten
    let dates := List.insertionSort (fun a b : ℤ => a ≤ b) (pnl.map (fun rc => rc.1.date)).dedup
    let grouped := dates.map (fun d =>
      let rows := pnl.filter (fun rc => decide (rc.1.date = d))
      (⟨d, (rows.map (fun rc => rc.1.total_invested)).sum,
          (rows.map (fun rc => rc.1.current_value)).sum,
          rows.map (fun rc => rc.2), 0, 0⟩ : PRow))
    let grouped := grouped.filter (fun g => decide (0 < g.total_invested))
    .ok (grouped.map (fun g =>
      let pnl := g.current_value - g.total_invested
      { g with pnl := pnl, pnl_percentage := pnl / g.total_invested * 100 }))

end Portfolio

/-! ## Report / summary engine (`plots_and_summary.py`) -/

/-- `_match_nearest_date`: for each target date, append the first entry of
`all_dates` (the caller passes them in descending order) that is `≤` the
target and not matched already; targets with no such entry contribute
nothing. -/
def _match_nearest_date (dates_to_match all_dates : List ℤ) : List ℤ :=
  dates_to_match.foldl
    (fun dates_matched date =>
      match all_dates.find? (fun d => decide (d ≤ date) && !(dates_matched.contains d)) with
      | some d => dates_matched ++ [d]
      | none => dates_matched)
    []

/-- Modelled from the spec for comparison with `_match_nearest_date`:
for each checkpoint target, in order, match the latest (maximum) available
series date that is `≤` the target and not matched already; matched dates
are never reused, and targets with no candidate are skipped. -/
def matchNearestSpec (dates_to_match all_dates : List ℤ) : List ℤ :=
  dates_to_match.foldl
    (fun dates_matched date =>
      match (all_dates.filter
          (fun d => decide (d ≤ date) && !(dates_matched.contains d))).max? with
      | some d => dates_matched ++ [d]
      | none => dates_matched)
    []

/-- `create_dates_and_filtered_df`, polymorphic in the row type of the
input frame (the source works on any dataframe with a `date` column).
On an empty frame pandas' `max()`/`min()` yield `NaT`, no date compares
`≤ NaT`, and the scanned date list is empty anyway, so the `getD 0`
defaults below are never observable. -/
def create_dates_and_filtered_df {α : Type} (dateOf : α → ℤ) (pnl : List α)
    (extra_deltas : List ℤ) (extra_names : List String) :
    List String × List α :=
  let dates := pnl.map dateOf
  let last_date := dates.max?.getD 0
  let first_date := dates.min?.getD 0
  let deltas : List ℤ := [1, 2, 3, 7, 15, 30] ++ extra_deltas
  let dates_to_use := [last_date] ++ deltas.map (fun i => last_date - i) ++ [first_date]
  let dates_matched := _match_nearest_date dates_to_use dates.reverse
  let summary_df := pnl.filter (fun r => dates_matched.contains (dateOf r))
  let summary_df := List.insertionSort (fun a b => dateOf b ≤ dateOf a) summary_df
  let date_names :=
    ["T", "T-1", "T-2", "T-3", "Last Week", "Last 15 Days", "Last Month"] ++ extra_names
  let date_names :=
    if dates_to_use.length ≠ date_names.length then
      date_names ++
        (extra_deltas.take (dates_to_use.length - date_names.length - 1)).map
          (fun d => "Last " ++ toString d ++ " Days")
    else date_names
  let date_names := date_names ++ ["Since Start"]
  let mapping := dates_matched.zip date_names
  let dates_matched := List.insertionSort (fun a b : ℤ => b ≤ a) dates_matched
  let date_names := dates_matched.map (fun d => (mapping.lookup d).getD "")
  (date_names, summary_df)

/-- numpy float-to-int casting truncates toward zero. -/
def truncInt (q : ℚ) : ℤ :=
  if q < 0 then ⌈q⌉ else ⌊q⌋

/-- `round(k)` on a float column, modelled as decimal rounding of the
rational value (IEEE breaks ties to even on the binary representation; no
claim settled here depends on tie behaviour). -/
def roundTo (k : ℕ) (q : ℚ) : ℚ :=
  (round (q * 10 ^ k) : ℤ) / 10 ^ k

/-- A row of the portfolio-level timeseries handed to `create_summary`. -/
structure TsRow where
  date : ℤ
  total_invested : ℚ
  current_value : ℚ
  pnl : ℚ
  pnl_percentage : ℚ
deriving DecidableEq, Repr

/-- A row of the table returned by `create_summary`, after column
renaming.  `time_period` is the "Time Period (Trading Days)" label;
`date` keeps the underlying date (the source merely reformats it to a
string for display).  Integer columns went through `astype(int)`;
percentage columns are `Option ℚ` because a zero invested amount makes
the float division non-finite. -/
structure SummaryRow where
  time_period : String
  date : ℤ
  total_investment : ℤ
  current_value : ℤ
  pnl : ℤ
  pnl_percentage : Option ℚ
  pnl_change : ℤ
  pnl_change_percentage : Option ℚ
deriving DecidableEq, Repr

/-- `create_summary`.  `final_pnl = pnl_[0]` raises `IndexError` on an
empty filtered frame; building the `summary_df` DataFrame from the
column dict raises `ValueError` when the label list and the value
columns differ in length (possible when the input has duplicate dates). -/
def create_summary (pnl : List TsRow) (extra_deltas : List ℤ)
    (extra_names : List String) : Except String (List SummaryRow) :=
  let r := create_dates_and_filtered_df (·.date) pnl extra_deltas extra_names
  let date_names := r.1
  let summary_df := r.2
  let pnl_ := summary_df.map (·.pnl)
  match pnl_.head? with
  | none => .error "IndexError: index 0 is out of bounds for axis 0 with size 0"
  | some final_pnl =>
    if date_names.length = summary_df.length then
      let ti0 := (summary_df.map (·.total_invested)).headD 0
      .ok ((date_names.zip summary_df).map (fun x =>
        let name := x.1
        let row := x.2
        let pnl_change := final_pnl - row.pnl
        let p := row.current_value - row.total_invested
        { time_period := name
          date := row.date
          total_investment := truncInt row.total_invested
          current_value := truncInt row.current_value
          pnl := truncInt p
          pnl_percentage := (npDiv p row.total_invested).map (fun q => roundTo 2 (q * 100))
          pnl_change := truncInt pnl_change
          pnl_change_percentage :=
            (npDiv pnl_change ti0).map (fun q => roundTo 2 (q * 100)) }))
    else .error "ValueError: All arrays must be of the same length"

/-- A row of the per-scheme concatenated timeseries (`portfolio.pnl`)
handed to the scheme-level report builders. -/
structure SchemeRow where
  date : ℤ
  total_invested : ℚ
  current_value : ℚ
  pnl : ℚ
  pnl_percentage : ℚ
  scheme_code : ℤ
deriving DecidableEq, Repr

/-- `groupby(["scheme_code", "date"])[[c]].sum().reset_index()`: one row
per distinct `(scheme_code, date)` pair, keys sorted ascending
lexicographically (pandas sorts group keys), carrying the sum of `f`. -/
def groupbySchemeDate (rows : List SchemeRow) (f : SchemeRow → ℚ) :
    List (ℤ × ℤ × ℚ) :=
  let keys := (rows.map (fun r => (r.scheme_code, r.date))).dedup
  let keys := List.insertionSort
    (fun a b : ℤ × ℤ => a.1 < b.1 ∨ (a.1 = b.1 ∧ a.2 ≤ b.2)) keys
  keys.map (fun k =>
    (k.1, k.2,
      ((rows.filter (fun r =>
        decide (r.scheme_code = k.1) && decide (r.date = k.2))).map f).sum))

/-- `drop_duplicates(subset=["scheme_code"], keep="last")`: keep a row iff
no later row carries the same scheme code. -/
def dropDupKeepLast (rows : List (ℤ × ℤ × ℚ)) : List (ℤ × ℤ × ℚ) :=
  (rows.enum.filter (fun p =>
    (rows.enum.filter (fun q =>
      decide (p.1 < q.1) && decide (q.2.1 = p.2.1))).isEmpty)).map (·.2)

/-- A row of the merged `pnl_all_` frame of the relative summary; the
`Option` fields model float cells that a failed left-merge would leave as
NaN (in fact the merges always match, the keys coming from the same
grouped frame). -/
structure ChangeRow where
  scheme_code : ℤ
  date : ℤ
  change_in_pnl : Option ℚ
  change_pct : Option ℚ
deriving DecidableEq, Repr

/-- `DataFrame.bfill()` on one column stored ascending by date: a NaN
cell takes the first non-NaN value below it. -/
def bfill (cells : List (Option ℚ)) : List (Option ℚ) :=
  match cells with
  | [] => []
  | x :: xs =>
    (match x with
     | some v => some v
     | none => xs.findSome? id) :: bfill xs

/-- A row of the table returned by
`create_scheme_level_relative_pnl_summary`: checkpoint label (the frame's
index after relabelling), underlying date (the "Date" column, which the
source reformats to a string), and the flattened per-scheme cells in
column order. -/
structure RelRow where
  label : String
  date : ℤ
  cells : List (Option ℚ)
deriving DecidableEq, Repr

/-- The pivot/format stage of `create_scheme_level_relative_pnl_summary`
(its body from the `total_investments` grouping onward, with the
checkpoint labels and the filtered frame produced by
`create_dates_and_filtered_df` passed in).  Returns the flattened column
names together with the rows.  Raises (`Except.error`): `KeyError` when a
pivoted scheme code is missing from `names_scheme_mapping`, and
`ValueError` when the checkpoint label list does not match the pivot's
row count.  `format_numbers` converts the `change_in_pnl_*` columns with
`astype(int)`, dropping a column whose cells contain a non-finite value,
and rounds the other numeric columns to 4 decimals.  The final
`iloc[1:]` removes the first (most recent checkpoint) row. -/
def relative_pivot_table (date_names : List String) (summary_df : List SchemeRow)
    (names_scheme_mapping : List (ℤ × String)) :
    Except String (List String × List RelRow) :=
  let total_investments :=
    (dropDupKeepLast (groupbySchemeDate summary_df (·.total_invested))).map
      (fun g => (g.1, g.2.2))
  let pnl_groups := groupbySchemeDate summary_df (·.pnl)
  let current_pnl := (dropDupKeepLast pnl_groups).map (fun g => (g.1, g.2.2))
  let pnl_all := pnl_groups.map (fun g =>
    let cp := (current_pnl.find? (fun c => c.1 == g.1)).map (·.2)
    let ti := (total_investments.find? (fun c => c.1 == g.1)).map (·.2)
    let change := cp.map (fun c => c - g.2.2)
    -- change / total_invested * 100, with np.inf ↦ 100 and -np.inf ↦ -100
    -- (the NaN of a 0/0 division is not replaced)
    let pct : Option ℚ :=
      match change, ti with
      | some ch, some t =>
        if t = 0 then
          (if ch = 0 then none else some (if 0 < ch then (100 : ℚ) else -100))
        else some (ch / t * 100)
      | _, _ => none
    (⟨g.1, g.2.1, change, pct⟩ : ChangeRow))
  -- pivot(columns="scheme_code", index="date", values=["change_in_pnl%", "change_in_pnl"])
  let pdates := List.insertionSort (fun a b : ℤ => a ≤ b)
    ((pnl_all.map (·.date)).dedup)
  let schemes := List.insertionSort (fun a b : ℤ => a ≤ b)
    ((pnl_all.map (·.scheme_code)).dedup)
  let cell := fun (s d : ℤ) => pnl_all.find? (fun g => g.scheme_code == s && g.date == d)
  match schemes.mapM (fun s => names_scheme_mapping.lookup s) with
  | none => .error "KeyError: scheme code missing from names_scheme_mapping"
  | some snames =>
    let cols :=
      (schemes.zip snames).map (fun p =>
        ("change_in_pnl%_" ++ p.2,
          bfill (pdates.map (fun d => (cell p.1 d).bind (·.change_pct))))) ++
      (schemes.zip snames).map (fun p =>
        ("change_in_pnl_" ++ p.2,
          bfill (pdates.map (fun d => (cell p.1 d).bind (·.change_in_pnl)))))
    -- sort_index(ascending=False) reverses the (ascending) pivot rows
    let pdates := pdates.reverse
    let cols := cols.map (fun c => (c.1, c.2.reverse))
    -- format_numbers: int columns are those containing "change_in_pnl_"
    let cols := cols.filterMap (fun c =>
      if (c.1.splitOn "change_in_pnl_").length > 1 then
        if c.2.all (·.isSome) then
          some (c.1, c.2.map (fun v => v.map (fun q => ((truncInt q : ℤ) : ℚ))))
        else none
      else some (c.1, c.2.map (fun v => v.map (roundTo 4))))
    if date_names.length = pdates.length then
      let rows := (List.range pdates.length).map (fun i =>
        (⟨(date_names.getD i ""), (pdates.getD i 0),
          cols.map (fun c => c.2.getD i none)⟩ : RelRow))
      .ok (cols.map (·.1), rows.drop 1)
    else .error "ValueError: Length mismatch between index and labels"

/-- `create_scheme_level_relative_pnl_summary`: resolve the checkpoint
labels and the filtered frame, then pivot and format them. -/
def create_scheme_level_relative_pnl_summary (pnl : List SchemeRow)
    (names_scheme_mapping : List (ℤ × String)) (extra_deltas : List ℤ)
    (extra_names : List String) : Except String (List String × List RelRow) :=
  let r := create_dates_and_filtered_df (·.date) pnl extra_deltas extra_names
  relative_pivot_table r.1 r.2 names_scheme_mapping

/-! ## Shared lemmas about sorted lists and `getLast?` -/

theorem mem_of_getLast?_eq_some {α : Type} :
    ∀ {l : List α} {a : α}, l.getLast? = some a → a ∈ l := by
  intro l
  induction l with
  | nil => intro a hx; cases hx
  | cons b bs ih =>
    intro a hx
    cases bs with
    | nil =>
      simp only [List.getLast?_singleton, Option.some.injEq] at hx
      simp [hx]
    | cons c cs =>
      rw [List.getLast?_cons_cons] at hx
      exact List.mem_cons_of_mem _ (ih hx)

theorem le_getLast?_of_sorted {β : Type} (key : β → ℤ) :
    ∀ {l : List β}, List.Sorted (fun a b => key a ≤ key b) l →
      ∀ {p : β}, l.getLast? = some p → ∀ q ∈ l, key q ≤ key p := by
  intro l
  induction l with
  | nil => intro _ p hx; cases hx
  | cons a as ih =>
    intro hs p hlast q hq
    cases as with
    | nil =>
      simp only [List.getLast?_singleton, Option.some.injEq] at hlast
      subst hlast
      simp only [List.mem_singleton] at hq
      subst hq
      exact le_refl _
    | cons b bs =>
      rw [List.getLast?_cons_cons] at hlast
      have hs' := List.sorted_cons.mp hs
      rcases List.mem_cons.mp hq with rfl | hq'
      · exact hs'.1 p (mem_of_getLast?_eq_some hlast)
      · exact ih hs'.2 hlast q hq'

/-- Claim C2 (confirmed): in `Holding.get_pnl_timeseries`, the backward
as-of join (`merged_asof`, the `merge_asof` plus `notna` filter stage)
attaches to every NAV date `d` on or after the first transaction date the
running `total_units` and invested amount as of `d` (i.e. those of the
most recent transaction date `≤ d`, which carries the same running
values), and every NAV date strictly before the first transaction date
produces no row. -/
theorem C2_asof_join (h : Holding) (nav_data : List NavEntry) (fd : ℤ)
    (hmd : h.all_transactions.max_date = none)
    (hfd : (h.all_transactions.transaction_history_og.map (·.date)).min? = some fd) :
    (∀ r ∈ h.merged_asof nav_data,
       fd ≤ r.date ∧
       r.total_units = (h.all_transactions.total_units (some r.date)).1 ∧
       r.total_invested = (h.all_transactions.net_transaction_value (some r.date)).1) ∧
    (∀ e ∈ nav_data, fd ≤ e.date →
       ∃ r ∈ h.merged_asof nav_data, r.date = e.date ∧ r.nav = e.nav) ∧
    (∀ e ∈ nav_data, e.date < fd →
       ∀ r ∈ h.merged_asof nav_data, r.date ≠ e.date) := by
  haveI : IsTotal (ℤ × ℚ × ℚ) (fun a b => a.1 ≤ b.1) := ⟨fun a b => le_total a.1 b.1⟩
  haveI : IsTrans (ℤ × ℚ × ℚ) (fun a b => a.1 ≤ b.1) :=
    ⟨fun _ _ _ hab hbc => le_trans hab hbc⟩
  haveI : Std.Antisymm (fun a b : ℤ => a ≤ b) := ⟨fun h1 h2 => le_antisymm h1 h2⟩
  have hmin := (List.min?_eq_some_iff (fun a => le_refl a)
    (fun a b => min_choice a b) (fun a b c => le_min_iff)).mp hfd
  have hfd_le : ∀ x ∈ h.all_transactions.transaction_history_og, fd ≤ x.date := by
    intro x hx
    exact hmin.2 _ (List.mem_map_of_mem _ hx)
  have hth : h.all_transactions.transaction_history
      = h.all_transactions.transaction_history_og := by
    simp [TrasactionHistory.transaction_history, hmd]
  have hrows : h.transcation_df = List.insertionSort (fun a b => a.1 ≤ b.1)
      (h.all_transactions.transaction_history_og.map (fun x =>
        (x.date, (h.all_transactions.total_units (some x.date)).1,
          (h.all_transactions.net_transaction_value (some x.date)).1))) := by
    simp only [Holding.transcation_df, hth, List.map_map]
    rfl
  have hperm : h.transcation_df.Perm
      (h.all_transactions.transaction_history_og.map (fun x =>
        (x.date, (h.all_transactions.total_units (some x.date)).1,
          (h.all_transactions.net_transaction_value (some x.date)).1))) := by
    rw [hrows]
    exact List.perm_insertionSort _ _
  have hsorted : List.Sorted (fun a b : ℤ × ℚ × ℚ => a.1 ≤ b.1) h.transcation_df := by
    rw [hrows]
    exact List.sorted_insertionSort _ _
  have hmem_tdf : ∀ p ∈ h.transcation_df, ∃ x ∈ h.all_transactions.transaction_history_og,
      p = (x.date, (h.all_transactions.total_units (some x.date)).1,
        (h.all_transactions.net_transaction_value (some x.date)).1) := by
    intro p hp
    have := hperm.mem_iff.mp hp
    obtain ⟨x, hx, hpx⟩ := List.mem_map.mp this
    exact ⟨x, hx, hpx.symm⟩
  have hmem_tdf' : ∀ x ∈ h.all_transactions.transaction_history_og,
      (x.date, (h.all_transactions.total_units (some x.date)).1,
        (h.all_transactions.net_transaction_value (some x.date)).1) ∈ h.transcation_df := by
    intro x hx
    exact hperm.mem_iff.mpr (List.mem_map_of_mem _ hx)
  have hval : ∀ d₁ d₂ : ℤ,
      (∀ x ∈ h.all_transactions.transaction_history_og, (x.date ≤ d₁ ↔ x.date ≤ d₂)) →
      (h.all_transactions.total_units (some d₁)).1
          = (h.all_transactions.total_units (some d₂)).1 ∧
      (h.all_transactions.net_transaction_value (some d₁)).1
          = (h.all_transactions.net_transaction_value (some d₂)).1 := by
    intro d₁ d₂ hiff
    have hfil : h.all_transactions.transaction_history_og.filter
          (fun x => decide (x.date ≤ d₁))
        = h.all_transactions.transaction_history_og.filter
          (fun x => decide (x.date ≤ d₂)) :=
      List.filter_congr (fun x hx => decide_eq_decide.mpr (hiff x hx))
    constructor
    · simp only [TrasactionHistory.total_units, TrasactionHistory.units_array_with_sign,
        TrasactionHistory.transaction_history, hfil]
    · simp only [TrasactionHistory.net_transaction_value, TrasactionHistory.unit_array,
        TrasactionHistory.nav_array_with_sign, TrasactionHistory.transaction_history, hfil,
        apply_ite (Prod.fst)]
  have hjoin : ∀ (e : NavEntry) (p : ℤ × ℚ × ℚ),
      (h.transcation_df.filter (fun r => decide (r.1 ≤ e.date))).getLast? = some p →
      fd ≤ e.date ∧
      p.2.1 = (h.all_transactions.total_units (some e.date)).1 ∧
      p.2.2 = (h.all_transactions.net_transaction_value (some e.date)).1 := by
    intro e p hlast
    have hpmem_f := mem_of_getLast?_eq_some hlast
    have hpmem : p ∈ h.transcation_df := (List.mem_filter.mp hpmem_f).1
    have hple : p.1 ≤ e.date := by
      have := (List.mem_filter.mp hpmem_f).2
      simpa using this
    have hmax : ∀ q ∈ h.transcation_df, q.1 ≤ e.date → q.1 ≤ p.1 := by
      intro q hq hqle
      have hqf : q ∈ h.transcation_df.filter (fun r => decide (r.1 ≤ e.date)) :=
        List.mem_filter.mpr ⟨hq, by simpa using hqle⟩
      exact le_getLast?_of_sorted (fun r : ℤ × ℚ × ℚ => r.1)
        (List.Pairwise.filter _ hsorted) hlast q hqf
    obtain ⟨x, hx, hpx⟩ := hmem_tdf p hpmem
    have hiff : ∀ y ∈ h.all_transactions.transaction_history_og,
        (y.date ≤ p.1 ↔ y.date ≤ e.date) := by
      intro y hy
      constructor
      · intro hle
        exact le_trans hle hple
      · intro hle
        have hmem := hmem_tdf' y hy
        have := hmax _ hmem (by simpa using hle)
        simpa using this
    have hUV := hval p.1 e.date hiff
    refine ⟨?_, ?_, ?_⟩
    · have h1 : fd ≤ p.1 := by
        rw [hpx]
        exact hfd_le x hx
      exact le_trans h1 hple
    · rw [← hUV.1, hpx]
    · rw [← hUV.2, hpx]
  refine ⟨?_, ?_, ?_⟩
  · intro r hr
    simp only [Holding.merged_asof, List.mem_filterMap] at hr
    obtain ⟨e, he, hfe⟩ := hr
    cases hlast : (h.transcation_df.filter (fun q => decide (q.1 ≤ e.date))).getLast? with
    | none => rw [hlast] at hfe; cases hfe
    | some p =>
      rw [hlast] at hfe
      have hj := hjoin e p hlast
      cases hfe
      exact ⟨hj.1, hj.2.1, hj.2.2⟩
  · intro e he hle
    have henav : e ∈ List.insertionSort (fun a b : NavEntry => a.date ≤ b.date) nav_data :=
      ((List.perm_insertionSort _ nav_data).mem_iff).mpr he
    obtain ⟨hxd_mem, hxd_le⟩ := hmin
    obtain ⟨x, hx, hxdate⟩ := List.mem_map.mp hxd_mem
    have hmemt := hmem_tdf' x hx
    have hmemf : (x.date, (h.all_transactions.total_units (some x.date)).1,
        (h.all_transactions.net_transaction_value (some x.date)).1)
        ∈ h.transcation_df.filter (fun q => decide (q.1 ≤ e.date)) := by
      refine List.mem_filter.mpr ⟨hmemt, ?_⟩
      simp only [decide_eq_true_eq]
      rw [hxdate]  -- hmm hxdate : x.date = fd
      exact hle
    cases hlast : (h.transcation_df.filter (fun q => decide (q.1 ≤ e.date))).getLast? with
    | none =>
      rw [List.getLast?_eq_none_iff] at hlast
      rw [hlast] at hmemf
      cases hmemf
    | some p =>
      refine ⟨⟨e.date, e.nav, p.2.1, p.2.2⟩, ?_, rfl, rfl⟩
      simp only [Holding.merged_asof, List.mem_filterMap]
      exact ⟨e, henav, by rw [hlast]⟩
  · intro e he hlt r hr
    simp only [Holding.merged_asof, List.mem_filterMap] at hr
    obtain ⟨e', he', hfe⟩ := hr
    cases hlast : (h.transcation_df.filter (fun q => decide (q.1 ≤ e'.date))).getLast? with
    | none => rw [hlast] at hfe; cases hfe
    | some p =>
      rw [hlast] at hfe
      have hj := hjoin e' p hlast
      cases hfe
      intro heq
      simp only at heq
      have h1 := hj.1
      omega

/-- Claim C2 witness: the as-of join on a one-purchase ledger (first
transaction date 1) with one NAV date at the transaction date and one
strictly before it. -/
theorem C2_asof_join_witness :
    (∀ r ∈ ((Holding.init 1).create_transactions [⟨1, 100, 10⟩] [] none).merged_asof
        [⟨1, 10⟩, ⟨0, 9⟩],
       (1 : ℤ) ≤ r.date ∧
       r.total_units = (((Holding.init 1).create_transactions [⟨1, 100, 10⟩] []
           none).all_transactions.total_units (some r.date)).1 ∧
       r.total_invested = (((Holding.init 1).create_transactions [⟨1, 100, 10⟩] []
           none).all_transactions.net_transaction_value (some r.date)).1) ∧
    (∀ e ∈ [(⟨1, 10⟩ : NavEntry), ⟨0, 9⟩], (1 : ℤ) ≤ e.date →
       ∃ r ∈ ((Holding.init 1).create_transactions [⟨1, 100, 10⟩] [] none).merged_asof
           [⟨1, 10⟩, ⟨0, 9⟩], r.date = e.date ∧ r.nav = e.nav) ∧
    (∀ e ∈ [(⟨1, 10⟩ : NavEntry), ⟨0, 9⟩], e.date < (1 : ℤ) →
       ∀ r ∈ ((Holding.init 1).create_transactions [⟨1, 100, 10⟩] [] none).merged_asof
           [⟨1, 10⟩, ⟨0, 9⟩], r.date ≠ e.date) :=
  C2_asof_join ((Holding.init 1).create_transactions [⟨1, 100, 10⟩] [] none)
    [⟨1, 10⟩, ⟨0, 9⟩] 1 rfl (by decide)

/-! ## Shared lemmas about the checkpoint matcher -/

/-- `find?` returns the head of the filtered list. -/
theorem find?_eq_head?_filter {α : Type} (p : α → Bool) :
    ∀ l : List α, l.find? p = (l.filter p).head? := by
  intro l
  induction l with
  | nil => rfl
  | cons a as ih =>
    by_cases h : p a
    · rw [List.find?_cons_of_pos _ h, List.filter_cons, if_pos h]
      rfl
    · rw [List.find?_cons_of_neg _ h, List.filter_cons, if_neg h, ih]

/-- Folding `max` over elements no larger than the seed returns the seed. -/
theorem foldl_max_eq_self {a : ℤ} :
    ∀ {as : List ℤ}, (∀ x ∈ as, x ≤ a) → as.foldl max a = a := by
  intro as
  induction as with
  | nil => intro _; rfl
  | cons b bs ih =>
    intro h
    have hb : max a b = a := max_eq_left (h b (by simp))
    rw [List.foldl_cons, hb]
    exact ih (fun x hx => h x (by simp [hx]))

/-- On a descending list the maximum is the head. -/
theorem max?_eq_head?_of_sorted_ge :
    ∀ {l : List ℤ}, List.Sorted (· ≥ ·) l → l.max? = l.head? := by
  intro l hl
  cases l with
  | nil => rfl
  | cons a as =>
    have h : ∀ x ∈ as, x ≤ a := (List.sorted_cons.mp hl).1
    simp [List.max?, foldl_max_eq_self h]

/-- One step of `_match_nearest_date` on a descending date list picks the
maximum unused date `≤` the target. -/
theorem match_step_eq (t : ℤ) {all : List ℤ} (m : List ℤ)
    (hs : List.Sorted (· ≥ ·) all) :
    all.find? (fun d => decide (d ≤ t) && !(m.contains d))
      = (all.filter (fun d => decide (d ≤ t) && !(m.contains d))).max? := by
  rw [find?_eq_head?_filter]
  exact (max?_eq_head?_of_sorted_ge (List.Pairwise.filter _ hs)).symm

/-- The fold of `_match_nearest_date` agrees with the greedy
maximum-unused-date fold on a descending date list, for any starting
accumulator. -/
theorem match_fold_eq {all : List ℤ} (hs : List.Sorted (· ≥ ·) all) :
    ∀ (targets acc : List ℤ),
      targets.foldl (fun m t =>
        match all.find? (fun d => decide (d ≤ t) && !(m.contains d)) with
        | some d => m ++ [d]
        | none => m) acc
      = targets.foldl (fun m t =>
        match (all.filter (fun d => decide (d ≤ t) && !(m.contains d))).max? with
        | some d => m ++ [d]
        | none => m) acc := by
  intro targets
  induction targets with
  | nil => intro acc; rfl
  | cons t ts ih =>
    intro acc
    rw [List.foldl_cons, List.foldl_cons, match_step_eq t acc hs]
    exact ih _

/-- The fold of `_match_nearest_date` preserves distinctness of the
accumulated matches (the predicate excludes already-matched dates). -/
theorem match_fold_nodup (all : List ℤ) :
    ∀ (targets acc : List ℤ), acc.Nodup →
      (targets.foldl (fun m t =>
        match all.find? (fun d => decide (d ≤ t) && !(m.contains d)) with
        | some d => m ++ [d]
        | none => m) acc).Nodup := by
  intro targets
  induction targets with
  | nil => intro acc h; exact h
  | cons t ts ih =>
    intro acc h
    rw [List.foldl_cons]
    apply ih
    cases hf : all.find? (fun d => decide (d ≤ t) && !(acc.contains d)) with
    | none => exact h
    | some d =>
      have hp := List.find?_some hf
      simp only [Bool.and_eq_true, Bool.not_eq_true'] at hp
      simp only [List.nodup_append, List.nodup_cons, List.not_mem_nil,
        not_false_iff, List.nodup_nil, and_true, List.Disjoint, true_and]
      refine ⟨h, ?_⟩
      intro a ha hmem
      simp only [List.mem_singleton] at hmem
      subst hmem
      have h2 : acc.contains a = true := List.elem_iff.mpr ha
      rw [hp.2] at h2
      exact Bool.false_ne_true h2

/-! ## Claim C3 -/

/-- Claim C3 (confirmed): on a descending series date list (the order in
which `create_dates_and_filtered_df` passes it), `_match_nearest_date`
matches each target, in target order, to the latest available date that is
`≤` the target and not already matched — scanning further back when the
nearest date is taken — and never matches one date to two checkpoints. -/
theorem C3_nearest_checkpoint_resolution (targets all_dates : List ℤ)
    (hs : List.Sorted (· ≥ ·) all_dates) :
    _match_nearest_date targets all_dates = matchNearestSpec targets all_dates ∧
    (_match_nearest_date targets all_dates).Nodup := by
  constructor
  · unfold _match_nearest_date matchNearestSpec
    exact match_fold_eq hs targets []
  · unfold _match_nearest_date
    exact match_fold_nodup all_dates targets [] (by simp)

/-- Claim C3 witness: the matcher on a concrete descending date list. -/
theorem C3_nearest_checkpoint_resolution_witness :
    _match_nearest_date [10, 9, 3] [10, 7, 5, 2]
        = matchNearestSpec [10, 9, 3] [10, 7, 5, 2] ∧
    (_match_nearest_date [10, 9, 3] [10, 7, 5, 2]).Nodup :=
  C3_nearest_checkpoint_resolution [10, 9, 3] [10, 7, 5, 2] (by decide)

/-! ## Claim C4 -/

/-- Claim C4 (code_bug evaluation): `net_transaction_value` is supposed to
equal `Σ units·signed_price` over the transactions dated `≤ asOf` (its own
log message reserves the 0 short-circuit for an empty history), but its
guard tests `Σ signed_nav = 0`.  After a purchase of 100 units at NAV 10
and a sale of 40 units at the *same* NAV 10 the guard misfires: the method
returns 0 although the sum is 600.  On the spec's Scenario B (sale at NAV
12) the method and the formula agree on 520. -/
theorem C4_invested_amount_eval :
    (TrasactionHistory.net_transaction_value
        ⟨[⟨1, 100, 10, .purchase⟩, ⟨2, 40, 10, .sell⟩], none⟩ (some 2)).1 = 0 ∧
    ((([⟨1, 100, 10, .purchase⟩, ⟨2, 40, 10, .sell⟩] : List Trasaction).filter
        (fun x => decide (x.date ≤ 2))).map (fun x => x.units * x.nav_with_sign)).sum
      = 600 ∧
    (TrasactionHistory.net_transaction_value
        ⟨[⟨1, 100, 10, .purchase⟩, ⟨2, 40, 12, .sell⟩], none⟩ (some 2)).1 = 520 := by
  refine ⟨?_, ?_, ?_⟩ <;>
    norm_num [TrasactionHistory.net_transaction_value,
      TrasactionHistory.nav_array_with_sign, TrasactionHistory.unit_array,
      TrasactionHistory.transaction_history, Trasaction.nav_with_sign,
      List.filter, List.zipWith, List.sum_cons]

/-! ## Claim C5 -/

/-- Claim C5 (counterexample): calling the aggregate `total_units` with a
cutoff is observable afterwards — the ledger with one transaction dated 5
has `len = 1` before the call, `len = 0` after `total_units(max_date=3)`,
and a subsequent `add_transaction` appends to the filtered temporary list
and is lost (the raw ledger stays unchanged). -/
theorem C5_cutoff_left_behind :
    TrasactionHistory.len ⟨[⟨5, 10, 2, .purchase⟩], none⟩ = 1 ∧
    (TrasactionHistory.total_units ⟨[⟨5, 10, 2, .purchase⟩], none⟩ (some 3)).2.len = 0 ∧
    ((TrasactionHistory.total_units ⟨[⟨5, 10, 2, .purchase⟩], none⟩
        (some 3)).2.add_transaction 7 1 1 .purchase).transaction_history_og
      = [⟨5, 10, 2, .purchase⟩] := by
  refine ⟨rfl, rfl, rfl⟩

/-- Claim C5 (amended): each aggregate leaves the raw transaction list
untouched but rebinds the ledger's `max_date` cutoff to its argument, so
every subsequent operation behaves as under that cutoff (unfiltered again
only when the argument was `None`). -/
theorem C5_aggregates_rebind_cutoff (th : TrasactionHistory) (md : Option ℤ)
    (nav : ℚ) (percentage : Bool) :
    (th.total_units md).2 = { th with max_date := md } ∧
    (th.average_nav md).2 = { th with max_date := md } ∧
    (th.transactions_pnl nav percentage md).2 = { th with max_date := md } ∧
    (th.net_transaction_value md).2 = { th with max_date := md } := by
  refine ⟨rfl, ?_, ?_, ?_⟩ <;>
    simp only [TrasactionHistory.average_nav, TrasactionHistory.transactions_pnl,
      TrasactionHistory.net_transaction_value, apply_ite (Prod.snd)] <;>
    split <;> rfl

/-! ## Claim C6 -/

/-- Claim C6 (counterexample): after `create_transactions` with a purchase
dated 1 and a sale dated 2, `all_transactions` holds the dates in the
order `[2, 1]` — `sort_transactions()` defaults to `reverse=True`, so the
merged ledger is sorted descending, not ascending as claimed. -/
theorem C6_merged_ledger_not_ascending :
    (((Holding.init 1).create_transactions [⟨1, 10, 5⟩] [⟨2, 4, 6⟩]
        none).all_transactions.transaction_history_og.map (·.date)) = [2, 1] ∧
    ¬ List.Sorted (· ≤ ·)
      (((Holding.init 1).create_transactions [⟨1, 10, 5⟩] [⟨2, 4, 6⟩]
          none).all_transactions.transaction_history_og.map (·.date)) := by
  constructor
  · rfl
  · decide

/-- Claim C6 (amended): after `create_transactions`, `all_transactions` is
a permutation of the union of the purchase ledger and the sell ledger and
is sorted in *descending* order by date. -/
theorem C6_union_sorted_descending (h : Holding) (purchases sells : List Leg)
    (md : Option ℤ) :
    ((h.create_transactions purchases sells
        md).all_transactions.transaction_history_og).Perm
      ((h.create_transactions purchases sells
          md).purchase_history.transaction_history_og ++
        (h.create_transactions purchases sells
            md).sell_history.transaction_history_og) ∧
    List.Sorted (fun a b : Trasaction => b.date ≤ a.date)
      ((h.create_transactions purchases sells
          md).all_transactions.transaction_history_og) := by
  haveI : IsTotal Trasaction (fun a b => b.date ≤ a.date) :=
    ⟨fun a b => le_total b.date a.date⟩
  haveI : IsTrans Trasaction (fun a b => b.date ≤ a.date) :=
    ⟨fun _ _ _ hab hbc => le_trans hbc hab⟩
  constructor
  · have h1 : ∀ t : TrasactionHistory, ∀ m : Option ℤ,
        (t.average_nav m).2.transaction_history_og = t.transaction_history_og := by
      intro t m
      simp only [TrasactionHistory.average_nav, apply_ite (Prod.snd)]
      split <;> rfl
    simp only [Holding.create_transactions, TrasactionHistory.sort_transactions,
      TrasactionHistory.hadd, h1]
    exact List.perm_insertionSort _ _
  · simp only [Holding.create_transactions, TrasactionHistory.sort_transactions,
      TrasactionHistory.hadd]
    exact List.sorted_insertionSort _ _

/-! ## Claim C7 -/

/-- Claim C7 (counterexample): on an empty history the invested amount is
0, and `transactions_pnl(percentage=True)` does *not* return 0 — the
unguarded float division produces a non-finite value (modelled `none`). -/
theorem C7_percentage_of_zero_invested :
    ((⟨[], none⟩ : TrasactionHistory).transactions_pnl 5 true none).1 = none ∧
    (none : Option ℚ) ≠ some 0 := by
  exact ⟨rfl, by simp⟩

/-- Claim C7 (amended): the degenerate denominators never raise;
`average_nav` resolves a zero signed-unit sum to 0, while
`transactions_pnl(percentage=True)` resolves a zero invested amount to a
non-finite float (modelled `none`), not to 0. -/
theorem C7_degenerate_denominator (th : TrasactionHistory) (md : Option ℤ)
    (nav : ℚ) :
    (({ th with max_date := md } : TrasactionHistory).units_array_with_sign.sum = 0 →
      (th.average_nav md).1 = 0) ∧
    ((List.zipWith (· * ·)
        ({ th with max_date := md } : TrasactionHistory).unit_array
        ({ th with max_date := md } : TrasactionHistory).nav_array_with_sign).sum = 0 →
      (th.transactions_pnl nav true md).1 = none) := by
  constructor
  · intro h
    simp [TrasactionHistory.average_nav, h]
  · intro h
    simp [TrasactionHistory.transactions_pnl, npDiv, h]

/-- Claim C7 witness: the amended theorem applied to the empty history. -/
theorem C7_degenerate_denominator_witness :
    ((⟨[], none⟩ : TrasactionHistory).average_nav none).1 = 0 ∧
    ((⟨[], none⟩ : TrasactionHistory).transactions_pnl 3 true none).1 = none :=
  ⟨(C7_degenerate_denominator ⟨[], none⟩ none 3).1 (by rfl),
   (C7_degenerate_denominator ⟨[], none⟩ none 3).2 (by rfl)⟩

/-! ## Claim C9 -/

/-- Claim C9 (counterexample): a portfolio with one holding whose NAV
series lies entirely before the first transaction yields zero valid rows,
and `get_pnl_timeseries` returns a normal empty table, not an error. -/
theorem C9_zero_valid_rows_returns_ok :
    Portfolio.get_pnl_timeseries
      [((Holding.init 1).create_transactions [⟨10, 100, 10⟩] [] none, [⟨5, 12⟩])]
      = .ok [] := by
  rfl

/-- Claim C9 (amended): only the zero-holdings case fails — `pd.concat` of
no objects raises `ValueError` — while any nonempty holding list whose
per-holding series are all empty returns a normal empty table. -/
theorem C9_empty_portfolio (holdings : List (Holding × List NavEntry)) :
    Portfolio.get_pnl_timeseries []
        = .error "ValueError: No objects to concatenate" ∧
    (holdings ≠ [] →
      (∀ p ∈ holdings, Holding.get_pnl_timeseries p.1 p.2 = []) →
      Portfolio.get_pnl_timeseries holdings = .ok []) := by
  refine ⟨rfl, ?_⟩
  intro hne hall
  match holdings, hne with
  | (p :: rest), _ =>
    have hmap : ((p :: rest).map (fun hn =>
        (hn.1.get_pnl_timeseries hn.2).map (fun r => (r, hn.1.scheme_code))))
        = (p :: rest).map (fun _ => []) := by
      refine List.map_congr_left ?_
      intro a ha
      rw [hall a ha]
      rfl
    simp [Portfolio.get_pnl_timeseries, hmap]

/-- Claim C9 witness: the amended theorem applied to the empty list and to
a concrete one-holding portfolio with no valid rows. -/
theorem C9_empty_portfolio_witness :
    Portfolio.get_pnl_timeseries []
        = .error "ValueError: No objects to concatenate" ∧
    Portfolio.get_pnl_timeseries
      [((Holding.init 1).create_transactions [⟨10, 100, 10⟩] [] none, [⟨5, 13⟩])]
      = .ok [] :=
  ⟨(C9_empty_portfolio []).1,
   (C9_empty_portfolio
      [((Holding.init 1).create_transactions [⟨10, 100, 10⟩] [] none, [⟨5, 13⟩])]).2
      (by simp) (by intro x hx; simp at hx; rw [hx]; rfl)⟩

/-! ## Claim C8 -/

/-- Claim C8 (counterexample): on an empty timeseries `create_summary`
does not return a placeholder report — `pnl_[0]` on the empty pnl array
raises `IndexError`, which propagates to the caller. -/
theorem C8_empty_input_raises :
    create_summary [] [] []
      = .error "IndexError: index 0 is out of bounds for axis 0 with size 0" := by
  rfl

/-- Claim C8 (amended): the single-distinct-date case degenerates
gracefully — on a one-row timeseries every lookback checkpoint collapses
onto the single available date, which is matched once and labelled `T`,
and `create_summary` returns a one-row report. -/
theorem C8_single_date_degenerates (d : ℤ) (ti cv p pp : ℚ) :
    ∃ out, create_summary [(⟨d, ti, cv, p, pp⟩ : TsRow)] [] [] = .ok out ∧
      out.map (·.time_period) = ["T"] := by
  have e1 : ¬ (d ≤ d - 1) := by omega
  have e2 : ¬ (d ≤ d - 2) := by omega
  have e3 : ¬ (d ≤ d - 3) := by omega
  have e7 : ¬ (d ≤ d - 7) := by omega
  have e15 : ¬ (d ≤ d - 15) := by omega
  have e30 : ¬ (d ≤ d - 30) := by omega
  have hdm : create_dates_and_filtered_df (·.date) [(⟨d, ti, cv, p, pp⟩ : TsRow)] [] []
      = (["T"], [⟨d, ti, cv, p, pp⟩]) := by
    simp [create_dates_and_filtered_df, _match_nearest_date, e1, e2, e3, e7, e15, e30,
      List.insertionSort, List.orderedInsert, List.lookup]
  refine ⟨[⟨"T", d, truncInt ti, truncInt cv, truncInt (cv - ti),
    (npDiv (cv - ti) ti).map (fun q => roundTo 2 (q * 100)), truncInt (p - p),
    (npDiv (p - p) ti).map (fun q => roundTo 2 (q * 100))⟩], ?_, rfl⟩
  simp [create_summary, hdm]

/-! ## Claim C1 -/

/-- Claim C1 (confirmed): every row emitted by `Holding.get_pnl_timeseries`
and by `Portfolio.get_pnl_timeseries` satisfies
`pnl = current_value - total_invested` and `total_invested > 0` — rows with
non-positive invested amount are filtered out before the pnl columns are
derived. -/
theorem C1_pnl_row_invariant (h : Holding) (nav_data : List NavEntry)
    (holdings : List (Holding × List NavEntry)) (out : List Portfolio.PRow) :
    (∀ row ∈ h.get_pnl_timeseries nav_data,
      row.pnl = row.current_value - row.total_invested ∧ 0 < row.total_invested) ∧
    (Portfolio.get_pnl_timeseries holdings = .ok out →
      ∀ row ∈ out,
        row.pnl = row.current_value - row.total_invested ∧ 0 < row.total_invested) := by
  constructor
  · intro row hrow
    simp only [Holding.get_pnl_timeseries, List.mem_map] at hrow
    obtain ⟨r, hr, hrw⟩ := hrow
    have hpos : 0 < r.total_invested := by
      have := (List.mem_filter.mp hr).2
      simpa using this
    subst hrw
    exact ⟨rfl, hpos⟩
  · intro hok row hrow
    cases holdings with
    | nil => simp [Portfolio.get_pnl_timeseries] at hok
    | cons p rest =>
      simp only [Portfolio.get_pnl_timeseries, Except.ok.injEq] at hok
      subst hok
      simp only [List.mem_map] at hrow
      obtain ⟨g, hg, hrw⟩ := hrow
      have hpos : 0 < g.total_invested := by
        have := (List.mem_filter.mp hg).2
        simpa using this
      subst hrw
      exact ⟨rfl, hpos⟩

/-- Claim C1 witness: the invariant instantiated on a one-purchase holding
valued on its purchase date, at holding level and at portfolio level. -/
theorem C1_pnl_row_invariant_witness :
    ((⟨1, 10, 100, 1000, 1000, 0, 0⟩ : PnlRow).pnl =
        (⟨1, 10, 100, 1000, 1000, 0, 0⟩ : PnlRow).current_value -
          (⟨1, 10, 100, 1000, 1000, 0, 0⟩ : PnlRow).total_invested ∧
      0 < (⟨1, 10, 100, 1000, 1000, 0, 0⟩ : PnlRow).total_invested) ∧
    ((⟨1, 1000, 1000, [1], 0, 0⟩ : Portfolio.PRow).pnl =
        (⟨1, 1000, 1000, [1], 0, 0⟩ : Portfolio.PRow).current_value -
          (⟨1, 1000, 1000, [1], 0, 0⟩ : Portfolio.PRow).total_invested ∧
      0 < (⟨1, 1000, 1000, [1], 0, 0⟩ : Portfolio.PRow).total_invested) := by
  have hh : ((Holding.init 1).create_transactions [⟨1, 100, 10⟩] []
      none).get_pnl_timeseries [⟨1, 10⟩] = [⟨1, 10, 100, 1000, 1000, 0, 0⟩] := by
    norm_num [Holding.get_pnl_timeseries, Holding.merged_asof, Holding.transcation_df,
      Holding.create_transactions, Holding.init, Holding.create_transcations_dict,
      TrasactionHistory.create_transcations_from_dict, TrasactionHistory.add_transaction,
      TrasactionHistory.hadd, TrasactionHistory.sort_transactions,
      TrasactionHistory.transaction_history, TrasactionHistory.total_units,
      TrasactionHistory.net_transaction_value, TrasactionHistory.average_nav,
      TrasactionHistory.unit_array, TrasactionHistory.units_array_with_sign,
      TrasactionHistory.nav_array_with_sign, Trasaction.nav_with_sign,
      Trasaction.units_with_sign, List.insertionSort, List.orderedInsert,
      List.filter, List.filterMap, List.zipWith]
  have hp : Portfolio.get_pnl_timeseries
      [(((Holding.init 1).create_transactions [⟨1, 100, 10⟩] [] none), [⟨1, 10⟩])]
      = .ok [⟨1, 1000, 1000, [1], 0, 0⟩] := by
    norm_num [Portfolio.get_pnl_timeseries, Holding.get_pnl_timeseries,
      Holding.merged_asof, Holding.transcation_df,
      Holding.create_transactions, Holding.init, Holding.create_transcations_dict,
      TrasactionHistory.create_transcations_from_dict, TrasactionHistory.add_transaction,
      TrasactionHistory.hadd, TrasactionHistory.sort_transactions,
      TrasactionHistory.transaction_history, TrasactionHistory.total_units,
      TrasactionHistory.net_transaction_value, TrasactionHistory.average_nav,
      TrasactionHistory.unit_array, TrasactionHistory.units_array_with_sign,
      TrasactionHistory.nav_array_with_sign, Trasaction.nav_with_sign,
      Trasaction.units_with_sign, List.insertionSort, List.orderedInsert,
      List.filter, List.filterMap, List.zipWith, List.dedup, List.flatten]
  exact ⟨(C1_pnl_row_invariant ((Holding.init 1).create_transactions [⟨1, 100, 10⟩] []
        none) [⟨1, 10⟩] [] []).1 _ (hh ▸ List.mem_singleton.mpr rfl),
    (C1_pnl_row_invariant ((Holding.init 1).create_transactions [⟨1, 100, 10⟩] [] none)
        [⟨1, 10⟩]
        [(((Holding.init 1).create_transactions [⟨1, 100, 10⟩] [] none), [⟨1, 10⟩])]
        [⟨1, 1000, 1000, [1], 0, 0⟩]).2 hp _ (List.mem_singleton.mpr rfl)⟩

/-! ## Shared lemmas for the relative-summary pivot, and claim C10 -/


theorem map_range_getD {α : Type} (d : α) :
    ∀ l : List α, (List.range l.length).map (fun i => l.getD i d) = l := by
  intro l
  induction l with
  | nil => rfl
  | cons a as ih =>
    rw [List.length_cons, List.range_succ_eq_map, List.map_cons, List.map_map]
    rw [List.getD_cons_zero]
    rw [show ((fun i => (a :: as).getD i d) ∘ Nat.succ) = (fun i => as.getD i d) from
      funext fun i => List.getD_cons_succ]
    rw [ih]

theorem mapM_isSome_of_forall {α β : Type} (f : α → Option β) :
    ∀ {l : List α}, (∀ a ∈ l, (f a).isSome) → ∃ bs, l.mapM f = some bs := by
  intro l
  induction l with
  | nil => exact fun _ => ⟨[], rfl⟩
  | cons a as ih =>
    intro h
    obtain ⟨bs, hbs⟩ := ih (fun x hx => h x (List.mem_cons_of_mem _ hx))
    obtain ⟨b, hb⟩ := Option.isSome_iff_exists.mp (h a (by simp))
    exact ⟨b :: bs, by rw [List.mapM_cons, hb, hbs]; rfl⟩

theorem lookup_mem {α β : Type} [BEq α] [LawfulBEq α] :
    ∀ {ps : List (α × β)} {k : α} {v : β}, ps.lookup k = some v → (k, v) ∈ ps := by
  intro ps
  induction ps with
  | nil => intro k v hx; cases hx
  | cons p rest ih =>
    intro k v hx
    rcases p with ⟨k', v'⟩
    rw [List.lookup_cons] at hx
    cases hbeq : (k == k') with
    | true =>
      rw [hbeq] at hx
      cases hx
      have hk := eq_of_beq hbeq
      subst hk
      exact List.mem_cons_self _ _
    | false =>
      rw [hbeq] at hx
      exact List.mem_cons_of_mem _ (ih hx)

theorem orderedInsert_front {α : Type} (r : α → α → Prop) [DecidableRel r] (a : α) :
    ∀ {l : List α}, (∀ b ∈ l, r a b) → List.orderedInsert r a l = a :: l := by
  intro l h
  cases l with
  | nil => rfl
  | cons b bs => simp [List.orderedInsert, if_pos (h b (by simp))]

theorem match_fold_split (all : List ℤ) :
    ∀ (targets acc : List ℤ), ∃ new,
      targets.foldl (fun m t =>
        match all.find? (fun d => decide (d ≤ t) && !(m.contains d)) with
        | some d => m ++ [d]
        | none => m) acc = acc ++ new ∧
      ∀ d ∈ new, d ∉ acc ∧ d ∈ all ∧ ∃ t ∈ targets, d ≤ t := by
  intro targets
  induction targets with
  | nil => intro acc; exact ⟨[], by simp, by simp⟩
  | cons t ts ih =>
    intro acc
    rw [List.foldl_cons]
    cases hf : all.find? (fun d => decide (d ≤ t) && !(acc.contains d)) with
    | none =>
      obtain ⟨new, hfold, hnew⟩ := ih acc
      refine ⟨new, hfold, fun d hd => ⟨(hnew d hd).1, (hnew d hd).2.1, ?_⟩⟩
      obtain ⟨t', ht', hle⟩ := (hnew d hd).2.2
      exact ⟨t', List.mem_cons_of_mem _ ht', hle⟩
    | some d0 =>
      obtain ⟨new, hfold, hnew⟩ := ih (acc ++ [d0])
      have hd0 := List.find?_some hf
      have hd0mem := List.mem_of_find?_eq_some hf
      simp only [Bool.and_eq_true, decide_eq_true_eq, Bool.not_eq_true'] at hd0
      refine ⟨d0 :: new, ?_, ?_⟩
      · rw [hfold, List.append_assoc]
        rfl
      · intro d hd
        rcases List.mem_cons.mp hd with rfl | hd'
        · refine ⟨?_, hd0mem, ⟨t, by simp, hd0.1⟩⟩
          intro hmem
          have h2 : acc.contains d = true := List.elem_iff.mpr hmem
          rw [hd0.2] at h2
          exact Bool.false_ne_true h2
        · have h3 := hnew d hd'
          refine ⟨fun hmem => h3.1 (by simp [hmem]), h3.2.1, ?_⟩
          obtain ⟨t', ht', hle⟩ := h3.2.2
          exact ⟨t', List.mem_cons_of_mem _ ht', hle⟩

theorem create_dates_nil_extras {α : Type} (dateOf : α → ℤ) (pnl : List α) :
    create_dates_and_filtered_df dateOf pnl [] [] =
      ((List.insertionSort (fun a b : ℤ => b ≤ a)
          (_match_nearest_date
            ([(pnl.map dateOf).max?.getD 0] ++
              ([1, 2, 3, 7, 15, 30] : List ℤ).map
                (fun i => (pnl.map dateOf).max?.getD 0 - i) ++
              [(pnl.map dateOf).min?.getD 0])
            (pnl.map dateOf).reverse)).map
          (fun d => (((_match_nearest_date
            ([(pnl.map dateOf).max?.getD 0] ++
              ([1, 2, 3, 7, 15, 30] : List ℤ).map
                (fun i => (pnl.map dateOf).max?.getD 0 - i) ++
              [(pnl.map dateOf).min?.getD 0])
            (pnl.map dateOf).reverse).zip
              ["T", "T-1", "T-2", "T-3", "Last Week", "Last 15 Days", "Last Month",
                "Since Start"]).lookup d).getD ""),
        List.insertionSort (fun a b => dateOf b ≤ dateOf a)
          (pnl.filter (fun r => (_match_nearest_date
            ([(pnl.map dateOf).max?.getD 0] ++
              ([1, 2, 3, 7, 15, 30] : List ℤ).map
                (fun i => (pnl.map dateOf).max?.getD 0 - i) ++
              [(pnl.map dateOf).min?.getD 0])
            (pnl.map dateOf).reverse).contains (dateOf r)))) := by
  simp [create_dates_and_filtered_df]

theorem groupby_dates_mem (rows : List SchemeRow) (f : SchemeRow → ℚ) (d : ℤ) :
    d ∈ (groupbySchemeDate rows f).map (fun g => g.2.1) ↔ ∃ r ∈ rows, r.date = d := by
  unfold groupbySchemeDate
  simp only [List.map_map]
  constructor
  · intro hd
    obtain ⟨k, hk, hkd⟩ := List.mem_map.mp hd
    have hk2 : k ∈ (rows.map (fun r => (r.scheme_code, r.date))).dedup :=
      (List.perm_insertionSort _ _).mem_iff.mp hk
    obtain ⟨r, hr, hrk⟩ := List.mem_map.mp (List.mem_dedup.mp hk2)
    refine ⟨r, hr, ?_⟩
    rw [← hrk] at hkd
    exact hkd
  · intro hd
    obtain ⟨r, hr, hrd⟩ := hd
    refine List.mem_map.mpr ⟨(r.scheme_code, r.date), ?_, hrd⟩
    exact (List.perm_insertionSort _ _).mem_iff.mpr
      (List.mem_dedup.mpr (List.mem_map_of_mem _ hr))

theorem groupby_schemes_mem (rows : List SchemeRow) (f : SchemeRow → ℚ) (s : ℤ) :
    s ∈ (groupbySchemeDate rows f).map (fun g => g.1) ↔ ∃ r ∈ rows, r.scheme_code = s := by
  unfold groupbySchemeDate
  simp only [List.map_map]
  constructor
  · intro hs
    obtain ⟨k, hk, hks⟩ := List.mem_map.mp hs
    have hk2 : k ∈ (rows.map (fun r => (r.scheme_code, r.date))).dedup :=
      (List.perm_insertionSort _ _).mem_iff.mp hk
    obtain ⟨r, hr, hrk⟩ := List.mem_map.mp (List.mem_dedup.mp hk2)
    refine ⟨r, hr, ?_⟩
    rw [← hrk] at hks
    exact hks
  · intro hs
    obtain ⟨r, hr, hrs⟩ := hs
    refine List.mem_map.mpr ⟨(r.scheme_code, r.date), ?_, hrs⟩
    exact (List.perm_insertionSort _ _).mem_iff.mpr
      (List.mem_dedup.mpr (List.mem_map_of_mem _ hr))

theorem relative_pivot_shape (date_names : List String) (summary_df : List SchemeRow)
    (nsm : List (ℤ × String))
    (hmm : ∀ s ∈ summary_df.map (·.scheme_code), (nsm.lookup s).isSome)
    (hcount : date_names.length
      = (((groupbySchemeDate summary_df (·.pnl)).map (fun g => g.2.1)).dedup).length) :
    ∃ pr, relative_pivot_table date_names summary_df nsm = .ok pr ∧
      pr.2.map (·.label) = date_names.tail := by
  have hms : ∀ s ∈ List.insertionSort (fun a b : ℤ => a ≤ b)
      (((groupbySchemeDate summary_df (fun r => r.pnl)).map (fun g => g.1)).dedup),
      (nsm.lookup s).isSome := by
    intro s hs
    have hs2 : s ∈ ((groupbySchemeDate summary_df (fun r => r.pnl)).map (fun g => g.1)) :=
      List.mem_dedup.mp ((List.perm_insertionSort _ _).mem_iff.mp hs)
    obtain ⟨r, hr, hrs⟩ := (groupby_schemes_mem _ _ _).mp hs2
    exact hmm s (List.mem_map.mpr ⟨r, hr, hrs⟩)
  obtain ⟨snames, hsn⟩ := mapM_isSome_of_forall (fun s => nsm.lookup s) hms
  simp only [relative_pivot_table, List.map_map, Function.comp_def]
  simp only [hsn]
  have hcond : date_names.length = (List.insertionSort (fun a b : ℤ => a ≤ b)
      ((List.map (fun g => g.2.1)
        (groupbySchemeDate summary_df (fun x => x.pnl))).dedup)).reverse.length := by
    rw [List.length_reverse, List.length_insertionSort]
    exact hcount
  rw [if_pos hcond]
  refine ⟨_, rfl, ?_⟩
  rw [List.map_drop]
  simp only [List.map_map, Function.comp_def]
  rw [← hcond, map_range_getD]
  rw [List.drop_one]

set_option maxHeartbeats 1000000 in
/-- Claim C10 (amended): provided the input timeseries' date column is
sorted ascending (so the list handed to the matcher is descending) and the
checkpoint resolution yields at least two labels, the table returned by
`create_scheme_level_relative_pnl_summary` has exactly the resolved
checkpoint labels in descending date order with the first row — labelled
`T`, the most recent checkpoint — removed, and no `T` row appears. -/
theorem C10_relative_summary_drops_T_row (pnl : List SchemeRow) (names_scheme_mapping : List (ℤ × String))
    (hsort : List.Sorted (· ≤ ·) (pnl.map (·.date)))
    (hmap : ∀ s ∈ pnl.map (·.scheme_code), (names_scheme_mapping.lookup s).isSome)
    (hlen : 2 ≤ (create_dates_and_filtered_df (·.date) pnl [] []).1.length) :
    ∃ pr, create_scheme_level_relative_pnl_summary pnl names_scheme_mapping [] []
        = .ok pr ∧
      pr.2.map (·.label) = (create_dates_and_filtered_df (·.date) pnl [] []).1.tail ∧
      (create_dates_and_filtered_df (·.date) pnl [] []).1.head? = some "T" ∧
      "T" ∉ pr.2.map (·.label) := by
  -- the input frame is nonempty
  have hne : pnl ≠ [] := by
    intro h
    subst h
    rw [show create_dates_and_filtered_df (fun r : SchemeRow => r.date) [] [] []
        = ([], []) from rfl] at hlen
    simp at hlen
  have hdne : pnl.map (fun r : SchemeRow => r.date) ≠ [] := by
    simpa using hne
  have hrev : List.Sorted (· ≥ ·) (pnl.map (fun r : SchemeRow => r.date)).reverse := by
    rw [List.Sorted, List.pairwise_reverse]
    exact hsort
  obtain ⟨a, tl, hall⟩ : ∃ a tl,
      (pnl.map (fun r : SchemeRow => r.date)).reverse = a :: tl := by
    cases h : (pnl.map (fun r : SchemeRow => r.date)).reverse with
    | nil =>
      rw [List.reverse_eq_nil_iff] at h
      exact absurd h hdne
    | cons x xs => exact ⟨x, xs, rfl⟩
  have hamem : a ∈ pnl.map (fun r : SchemeRow => r.date) := by
    rw [← List.mem_reverse, hall]
    simp
  have haub : ∀ b ∈ pnl.map (fun r : SchemeRow => r.date), b ≤ a := by
    intro b hb
    have hb2 : b ∈ a :: tl := by
      rw [← hall, List.mem_reverse]
      exact hb
    rcases List.mem_cons.mp hb2 with rfl | h2
    · exact le_refl _
    · exact (List.sorted_cons.mp (hall ▸ hrev)).1 b h2
  haveI : Std.Antisymm (fun a b : ℤ => a ≤ b) := ⟨fun h1 h2 => le_antisymm h1 h2⟩
  have hmax : (pnl.map (fun r : SchemeRow => r.date)).max? = some a :=
    (List.max?_eq_some_iff (fun x => le_refl x) (fun x y => max_choice x y)
      (fun x y z => max_le_iff)).mpr ⟨hamem, haub⟩
  have hMgd : (pnl.map (fun r : SchemeRow => r.date)).max?.getD 0 = a := by
    rw [hmax]
    rfl
  obtain ⟨mn, hmin⟩ : ∃ mn, (pnl.map (fun r : SchemeRow => r.date)).min? = some mn := by
    cases h : (pnl.map (fun r : SchemeRow => r.date)).min? with
    | none =>
      rw [List.min?_eq_none_iff] at h
      exact absurd h hdne
    | some mn => exact ⟨mn, rfl⟩
  have hmnmem : mn ∈ pnl.map (fun r : SchemeRow => r.date) :=
    List.min?_mem (fun x y => min_choice x y) hmin
  have hmngd : (pnl.map (fun r : SchemeRow => r.date)).min?.getD 0 = mn := by
    rw [hmin]
    rfl
  have hmna : mn ≤ a := haub mn hmnmem
  -- rewrite the checkpoint-resolution in goal and hypothesis to a named list
  rw [create_dates_nil_extras] at hlen ⊢
  rw [hMgd, hmngd, hall] at hlen ⊢
  obtain ⟨matched, hm⟩ : ∃ m, m = _match_nearest_date
      ([a] ++ ([1, 2, 3, 7, 15, 30] : List ℤ).map (fun i => a - i) ++ [mn])
      (a :: tl) := ⟨_, rfl⟩
  rw [← hm] at hlen ⊢
  -- the first fold step matches the maximum date itself
  have hstep1 : ((a :: tl).find?
      (fun d => decide (d ≤ a) && !(([] : List ℤ).contains d))) = some a := by
    apply List.find?_cons_of_pos
    simp
  have hm2 : matched = ((([1, 2, 3, 7, 15, 30] : List ℤ).map (fun i => a - i)) ++
      [mn]).foldl
      (fun m t => match (a :: tl).find? (fun d => decide (d ≤ t) && !(m.contains d)) with
        | some d => m ++ [d]
        | none => m) [a] := by
    rw [hm]
    unfold _match_nearest_date
    rw [show (([a] ++ (([1, 2, 3, 7, 15, 30] : List ℤ).map (fun i => a - i))) ++ [mn])
        = a :: ((([1, 2, 3, 7, 15, 30] : List ℤ).map (fun i => a - i)) ++ [mn]) from by
      simp]
    rw [List.foldl_cons]
    rw [hstep1]
    rfl
  obtain ⟨new, hfold, hnew⟩ := match_fold_split (a :: tl)
    ((([1, 2, 3, 7, 15, 30] : List ℤ).map (fun i => a - i)) ++ [mn]) [a]
  have hmeq : matched = a :: new := by
    rw [hm2, hfold]
    rfl
  have hksmall : ∀ k ∈ ([1, 2, 3, 7, 15, 30] : List ℤ), 1 ≤ k := by decide
  have hlt : ∀ d ∈ new, d < a := by
    intro d hd
    obtain ⟨hdna, hdall, t, ht, hdt⟩ := hnew d hd
    have hda : d ≠ a := by simpa using hdna
    rcases List.mem_append.mp ht with h1 | h2
    · obtain ⟨k, hk, hkt⟩ := List.mem_map.mp h1
      have := hksmall k hk
      omega
    · have h3 : t = mn := by simpa using h2
      subst h3
      omega
  have hsub : ∀ d ∈ matched, d ∈ pnl.map (fun r : SchemeRow => r.date) := by
    intro d hd
    rw [hmeq] at hd
    rcases List.mem_cons.mp hd with rfl | hd2
    · exact hamem
    · have h4 := (hnew d hd2).2.1
      rw [← List.mem_reverse, hall]
      exact h4
  have hnd : matched.Nodup := by
    rw [hm]
    exact match_fold_nodup _ _ [] List.nodup_nil
  -- the descending sort of the matched dates puts the maximum first
  have hsortm : List.insertionSort (fun x y : ℤ => y ≤ x) matched
      = a :: List.insertionSort (fun x y : ℤ => y ≤ x) new := by
    rw [hmeq]
    show List.orderedInsert _ a (List.insertionSort _ new) = _
    exact orderedInsert_front _ _ (fun b hb =>
      le_of_lt (hlt b ((List.perm_insertionSort _ new).mem_iff.mp hb)))
  -- head label is "T", tail labels are not
  have hlfa : (((matched.zip
      ["T", "T-1", "T-2", "T-3", "Last Week", "Last 15 Days", "Last Month",
        "Since Start"]).lookup a).getD "") = "T" := by
    rw [hmeq]
    simp [List.lookup_cons]
  have htailne : ∀ d ∈ List.insertionSort (fun x y : ℤ => y ≤ x) new,
      (((matched.zip
        ["T", "T-1", "T-2", "T-3", "Last Week", "Last 15 Days", "Last Month",
          "Since Start"]).lookup d).getD "") ≠ "T" := by
    intro d hd
    have hdnew : d ∈ new := (List.perm_insertionSort _ new).mem_iff.mp hd
    have hdna : d ≠ a := by simpa using (hnew d hdnew).1
    rw [hmeq]
    rw [show ((a :: new).zip
        ["T", "T-1", "T-2", "T-3", "Last Week", "Last 15 Days", "Last Month",
          "Since Start"]) = (a, "T") :: new.zip
        ["T-1", "T-2", "T-3", "Last Week", "Last 15 Days", "Last Month",
          "Since Start"] from rfl]
    rw [List.lookup_cons]
    rw [show (d == a) = false from by simp [hdna]]
    cases hlk : (new.zip
        ["T-1", "T-2", "T-3", "Last Week", "Last 15 Days", "Last Month",
          "Since Start"]).lookup d with
    | none => simp
    | some v =>
      have hv := (List.of_mem_zip (lookup_mem hlk)).2
      have hall7 : ∀ w ∈ ["T-1", "T-2", "T-3", "Last Week", "Last 15 Days",
          "Last Month", "Since Start"], w ≠ "T" := by decide
      simp only [Option.getD_some]
      exact hall7 v hv
  -- the pivot row count equals the matched-date count
  have hiff : ∀ d, (d ∈ (groupbySchemeDate (List.insertionSort (fun x y : SchemeRow => y.date ≤ x.date)
      (pnl.filter (fun r => matched.contains r.date))) (fun x => x.pnl)).map
      (fun g => g.2.1)) ↔ d ∈ matched := by
    intro d
    rw [groupby_dates_mem]
    constructor
    · rintro ⟨r, hr, rfl⟩
      have hr2 : r ∈ pnl.filter (fun r => matched.contains r.date) :=
        (List.perm_insertionSort _ _).mem_iff.mp hr
      have h6 : List.elem r.date matched = true := (List.mem_filter.mp hr2).2
      exact List.elem_iff.mp h6
    · intro hd
      obtain ⟨r, hr, hrd⟩ := List.mem_map.mp (hsub d hd)
      refine ⟨r, ?_, hrd⟩
      refine (List.perm_insertionSort _ _).mem_iff.mpr (List.mem_filter.mpr ⟨hr, ?_⟩)
      exact (List.elem_iff.mpr (hrd ▸ hd) : List.elem r.date matched = true)
  have hcount : ((List.insertionSort (fun x y : ℤ => y ≤ x) matched).map
        (fun d => ((matched.zip ["T", "T-1", "T-2", "T-3", "Last Week", "Last 15 Days", "Last Month",
        "Since Start"]).lookup d).getD "")).length
      = (((groupbySchemeDate (List.insertionSort (fun x y : SchemeRow => y.date ≤ x.date)
      (pnl.filter (fun r => matched.contains r.date))) (fun x => x.pnl)).map (fun g => g.2.1)).dedup).length := by
    rw [List.length_map, List.length_insertionSort]
    have hnd2 : (((groupbySchemeDate (List.insertionSort (fun x y : SchemeRow => y.date ≤ x.date)
      (pnl.filter (fun r => matched.contains r.date)))
        (fun x => x.pnl)).map (fun g => g.2.1)).dedup).Nodup := List.nodup_dedup _
    have hfs : (((groupbySchemeDate (List.insertionSort (fun x y : SchemeRow => y.date ≤ x.date)
      (pnl.filter (fun r => matched.contains r.date)))
        (fun x => x.pnl)).map (fun g => g.2.1)).dedup).toFinset = matched.toFinset := by
      ext d
      simp only [List.mem_toFinset, List.mem_dedup]
      exact hiff d
    have h1 := List.toFinset_card_of_nodup hnd2
    have h2 := List.toFinset_card_of_nodup hnd
    rw [hfs] at h1
    omega
  have hmm2 : ∀ s ∈ (List.insertionSort (fun x y : SchemeRow => y.date ≤ x.date)
      (pnl.filter (fun r => matched.contains r.date))).map (fun x => x.scheme_code),
      (names_scheme_mapping.lookup s).isSome := by
    intro s hs
    obtain ⟨r, hr, hrs⟩ := List.mem_map.mp hs
    have hr2 : r ∈ pnl :=
      (List.mem_filter.mp ((List.perm_insertionSort _ _).mem_iff.mp hr)).1
    exact hmap s (List.mem_map.mpr ⟨r, hr2, hrs⟩)
  obtain ⟨pr, hpr, hlab⟩ := relative_pivot_shape
    ((List.insertionSort (fun x y : ℤ => y ≤ x) matched).map
      (fun d => ((matched.zip ["T", "T-1", "T-2", "T-3", "Last Week", "Last 15 Days", "Last Month",
        "Since Start"]).lookup d).getD ""))
    (List.insertionSort (fun x y : SchemeRow => y.date ≤ x.date)
      (pnl.filter (fun r => matched.contains r.date))) names_scheme_mapping hmm2 hcount
  refine ⟨pr, ?_, ?_, ?_, ?_⟩
  · simp only [create_scheme_level_relative_pnl_summary]
    rw [create_dates_nil_extras, hMgd, hmngd, hall, ← hm]
    exact hpr
  · exact hlab
  · show ((List.insertionSort (fun x y : ℤ => y ≤ x) matched).map
      (fun d => ((matched.zip ["T", "T-1", "T-2", "T-3", "Last Week", "Last 15 Days", "Last Month",
        "Since Start"]).lookup d).getD "")).head? = some "T"
    rw [hsortm, List.map_cons, List.head?_cons]
    rw [hlfa]
  · rw [hlab]
    show "T" ∉ ((List.insertionSort (fun x y : ℤ => y ≤ x) matched).map
      (fun d => ((matched.zip ["T", "T-1", "T-2", "T-3", "Last Week", "Last 15 Days", "Last Month",
        "Since Start"]).lookup d).getD "")).tail
    rw [hsortm, List.map_cons, List.tail_cons]
    intro hmem
    obtain ⟨d, hd, hdT⟩ := List.mem_map.mp hmem
    exact htailne d hd hdT

/-- Claim C10 (counterexample): on an input whose date column is *not*
sorted ascending (dates in order `[135, 140, 128]`), the checkpoint
matcher assigns `T` to 128 and `T-1` to 135; dropping the first row of the
descending pivot removes the `T-1` row, and the returned table consists of
exactly the `T` row — the claim that the `T` row never appears fails. -/
theorem C10_T_row_survives_unsorted_input :
    (create_scheme_level_relative_pnl_summary
        [⟨135, 1, 1, 5, 0, 1⟩, ⟨140, 1, 1, 7, 0, 1⟩, ⟨128, 1, 1, 3, 0, 1⟩]
        [(1, "A")] [] []).map (fun out => out.2.map (·.label))
      = .ok ["T"] := by
  rfl

/-- Claim C10 witness: the amended theorem on a concrete ascending
three-date timeseries (checkpoints resolve to `T`, `T-1`, `T-2`; the
output keeps `T-1` and `T-2`). -/
theorem C10_relative_summary_drops_T_row_witness :
    ∃ pr, create_scheme_level_relative_pnl_summary
        [⟨128, 1, 1, 3, 0, 1⟩, ⟨135, 1, 1, 5, 0, 1⟩, ⟨140, 1, 1, 7, 0, 1⟩]
        [(1, "A")] [] [] = .ok pr ∧
      pr.2.map (·.label) = (create_dates_and_filtered_df (·.date)
        [(⟨128, 1, 1, 3, 0, 1⟩ : SchemeRow), ⟨135, 1, 1, 5, 0, 1⟩,
          ⟨140, 1, 1, 7, 0, 1⟩] [] []).1.tail ∧
      (create_dates_and_filtered_df (·.date)
        [(⟨128, 1, 1, 3, 0, 1⟩ : SchemeRow), ⟨135, 1, 1, 5, 0, 1⟩,
          ⟨140, 1, 1, 7, 0, 1⟩] [] []).1.head? = some "T" ∧
      "T" ∉ pr.2.map (·.label) :=
  C10_relative_summary_drops_T_row
    [⟨128, 1, 1, 3, 0, 1⟩, ⟨135, 1, 1, 5, 0, 1⟩, ⟨140, 1, 1, 7, 0, 1⟩]
    [(1, "A")] (by decide) (by decide) (by decide)


end InvestmentTracker
